import Mathlib

/-!
Shallow embedding of the zynseq step-sequencer core
(`zynlibs/zynseq/pattern.cpp` and `zynlibs/zynseq/zynseq.cpp`).

Machine integers (`uint8_t`, `uint32_t`) are modelled as `Nat` (no operation
relevant to the verified claims can overflow or wrap), `int` as `Int`, and
`float`/`double` quantities (event durations, frames-per-clock) as `ℚ`; the
concrete values exercised by the claims are exactly representable in single
or double precision, so rational arithmetic agrees with the source.
-/

namespace Zynseq

/-- Modelled from the spec: the MIDI status codes table (pattern.h, which
defines these constants, is not under src). Note-on is 0x90. -/
def MIDI_NOTE_ON : Nat := 0x90

/-- Modelled from the spec: MIDI status codes table. Continuous controller is 0xB0. -/
def MIDI_CONTROL : Nat := 0xB0

/-- Modelled from the spec: MIDI status codes table. Program change is 0xC0. -/
def MIDI_PROGRAM : Nat := 0xC0

/-- Record `StepEvent` from pattern.h / the spec data model: position, MIDI command,
start and end values for both data bytes, and a fractional duration. -/
structure StepEvent where
  position : Nat
  command : Nat
  value1start : Nat
  value1end : Nat
  value2start : Nat
  value2end : Nat
  duration : ℚ
deriving DecidableEq, Repr

/-- Modelled from the spec: pattern.h (the `StepEvent` constructor) is not
under src. Per the spec, `value1_start/end` hold the same value for discrete
events, and the call sites in pattern.cpp set end values separately when they
differ, so the five-argument constructor initialises end values from starts. -/
def newStepEvent (position command value1 value2 : Nat) (duration : ℚ) : StepEvent :=
  { position := position, command := command
    value1start := value1, value1end := value1
    value2start := value2, value2end := value2
    duration := duration }

/-- The fields of `Pattern` relevant to the verified operations:
`m_nBeats`, `m_nStepsPerBeat` and the event vector `m_vEvents`. -/
structure Pattern where
  beats : Nat
  stepsPerBeat : Nat
  events : List StepEvent
deriving DecidableEq, Repr

/-- The overlap test of `Pattern::addEvent` (pattern.cpp line 26): an existing
event (`nCheckStart`, `fCheckEnd`) is flagged against the new event interval
(`nEventStart = position`, `fEventEnd = position + duration`) when its start
lies in `[position, position + duration)` or its end lies in
`(position, position + duration]`. -/
def overlapTest (position : Nat) (duration : ℚ) (ev : StepEvent) : Bool :=
  (decide (position ≤ ev.position) && decide ((ev.position : ℚ) < (position : ℚ) + duration))
    || (decide ((position : ℚ) < (ev.position : ℚ) + ev.duration)
        && decide ((ev.position : ℚ) + ev.duration ≤ (position : ℚ) + duration))

/-- The full deletion criterion of the first loop of `Pattern::addEvent`
(pattern.cpp line 27): overlap plus equal command and equal value1 start. -/
def evictTest (position : Nat) (command value1 : Nat) (duration : ℚ) (ev : StepEvent) : Bool :=
  overlapTest position duration ev && ev.command == command && ev.value1start == value1

/-- The insertion loop of `Pattern::addEvent` (pattern.cpp lines 35-41):
insert before the first event whose position is strictly greater, i.e. after
all events at a smaller-or-equal position (stable for equal positions). -/
def insertByPosition (ev : StepEvent) : List StepEvent → List StepEvent
  | [] => [ev]
  | e :: rest =>
      if ev.position < e.position then ev :: e :: rest
      else e :: insertByPosition ev rest

/-- Source `Pattern::addEvent` (pattern.cpp lines 17-43): erase every stored event
matching the eviction criterion, then insert the new event in position order.
(The local `nTime` computed at line 34 is never used and is omitted.  The
C++ erase loop visits each element once, so it acts as a filter.)  The new
event is passed whole so that the caller that sets `value2end` on the
returned pointer (`Pattern::addControl`) is modelled by the same function. -/
def addEventCore (p : Pattern) (ev : StepEvent) : Pattern :=
  { p with events := insertByPosition ev (p.events.filter fun e =>
      !evictTest ev.position ev.command ev.value1start ev.duration e) }

/-- Source `Pattern::addNote` (pattern.cpp lines 65-72): reject when the step is past
the end of the pattern or note or velocity exceed 127, else add a note-on
event.  Returns the C++ `bool` result together with the updated pattern. -/
def addNote (p : Pattern) (step note velocity : Nat) (duration : ℚ) : Bool × Pattern :=
  if p.beats * p.stepsPerBeat ≤ step ∨ 127 < note ∨ 127 < velocity then (false, p)
  else (true, addEventCore p (newStepEvent step MIDI_NOTE_ON note velocity duration))

/-- Source `Pattern::addControl` (pattern.cpp lines 153-162).  Note the validation
uses `step > beats * stepsPerBeat` (strict), unlike `addNote`'s `>=`.  The
leaked local `pControl` allocation has no observable effect and is omitted;
setting `value2end` on the returned pointer is modelled by inserting the
event with that field already set. -/
def addControl (p : Pattern) (step control valueStart valueEnd : Nat) (duration : ℚ) : Pattern :=
  if p.beats * p.stepsPerBeat < step ∨ 127 < control ∨ 127 < valueStart ∨ 127 < valueEnd
      ∨ ((p.beats * p.stepsPerBeat : Nat) : ℚ) < duration then p
  else
    addEventCore p
      { newStepEvent step MIDI_CONTROL control valueStart duration with value2end := valueEnd }

/-- Source `Pattern::setBeatsInPattern` (pattern.cpp lines 230-241): update beats when
positive, then truncate the event vector at the first event whose position
reaches the new bound (the scan breaks at the first such index and resizes). -/
def setBeatsInPattern (p : Pattern) (beats : Nat) : Pattern :=
  let b := if 0 < beats then beats else p.beats
  { p with beats := b
           events := p.events.takeWhile fun ev => decide (ev.position < b * p.stepsPerBeat) }

/-- The allowed steps-per-beat values (the `switch` in `Pattern::setStepsPerBeat`). -/
def allowedStepsPerBeat (n : Nat) : Bool :=
  n == 1 || n == 2 || n == 3 || n == 4 || n == 6 || n == 8 || n == 12 || n == 24

/-- Source `Pattern::setStepsPerBeat` (pattern.cpp lines 193-223).  Two source slips
make the event-rescaling loop a no-op, and the model mirrors that behaviour:
the else-branch at line 199 declares a new shadowing local `fScale`, so the
outer `fScale` stays 1.0; and the loop at lines 217-221 iterates with
`for(StepEvent ev : m_vEvents)`, i.e. over by-value copies, so even the
writes of `position * 1.0` and `duration * 1.0` land in temporaries.  The
stored events are therefore returned unchanged. -/
def setStepsPerBeat (p : Pattern) (value : Nat) : Bool × Pattern :=
  let spbNorm := if p.stepsPerBeat = 0 ∨ 24 < p.stepsPerBeat then 4 else p.stepsPerBeat
  if allowedStepsPerBeat value then (true, { p with stepsPerBeat := value })
  else (false, { p with stepsPerBeat := spbNorm })

/-- The out-of-range test of the first loop of `Pattern::transpose`
(pattern.cpp lines 271-278): a note-on whose transposed note leaves 0..127. -/
def noteOutOfRange (v : Int) (ev : StepEvent) : Bool :=
  ev.command == MIDI_NOTE_ON
    && (decide (127 < (ev.value1start : Int) + v) || decide ((ev.value1start : Int) + v < 0))

/-- The update applied to one event by the second loop of `Pattern::transpose`
when the transposed note is in range: note-ons get both value1 fields set to
the shifted note, other events are untouched. -/
def transposeShift (v : Int) (ev : StepEvent) : StepEvent :=
  if ev.command == MIDI_NOTE_ON then
    { ev with value1start := ((ev.value1start : Int) + v).toNat
              value1end := ((ev.value1start : Int) + v).toNat }
  else ev

/-- One step of the second loop of `Pattern::transpose` (pattern.cpp lines
280-296): keep non-note-ons, erase out-of-range note-ons, shift the rest. -/
def transposeStep (v : Int) (ev : StepEvent) : Option StepEvent :=
  if ev.command == MIDI_NOTE_ON then
    if 127 < (ev.value1start : Int) + v ∨ (ev.value1start : Int) + v < 0 then none
    else some (transposeShift v ev)
  else some ev

/-- Source `Pattern::transpose` (pattern.cpp lines 268-297): first pass returns
unchanged if any note-on would leave 0..127, second pass erases out-of-range
note-ons (dead under the first pass) and shifts the rest. -/
def transpose (p : Pattern) (v : Int) : Pattern :=
  if p.events.any (noteOutOfRange v) then p
  else { p with events := p.events.filterMap (transposeStep v) }

/-- Source `Pattern::setNoteVelocity` (pattern.cpp lines 95-105).  The range-for
`for(StepEvent ev : m_vEvents)` iterates over by-value copies, so
`ev.setValue2start(velocity)` mutates a temporary; the loop below computes
those discarded copies and the stored events are returned unchanged. -/
def setNoteVelocity (p : Pattern) (step note velocity : Nat) : Pattern :=
  if 127 < velocity then p
  else
    let _copies := p.events.map fun ev =>
      if ev.position = step ∧ ev.command = MIDI_NOTE_ON ∧ ev.value1start = note then
        { ev with value2start := velocity }
      else ev
    p

/-- Source `Pattern::changeVelocityAll` (pattern.cpp lines 299-312).  Same by-value
range-for as `setNoteVelocity`: the clamped velocities are written to
temporaries and discarded; the stored events are returned unchanged. -/
def changeVelocityAll (p : Pattern) (value : Int) : Pattern :=
  let _copies := p.events.map fun ev =>
    if ev.command = MIDI_NOTE_ON then
      let vel := (ev.value2start : Int) + value
      let vel := if 127 < vel then 127 else vel
      let vel := if vel < 1 then 1 else vel
      { ev with value2start := vel.toNat }
    else ev
  p

/-- Source `Pattern::changeDurationAll` (pattern.cpp lines 314-327).  Same by-value
range-for (with an early return on a non-positive result and a 0.1 floor,
both applied to temporaries); the stored events are returned unchanged. -/
def changeDurationAll (p : Pattern) (value : ℚ) : Pattern :=
  let _copies := p.events.map fun ev =>
    if ev.command = MIDI_NOTE_ON then
      let duration := ev.duration + value
      let duration := if duration < (1 : ℚ) / 10 then (1 : ℚ) / 10 else duration
      { ev with duration := duration }
    else ev
  p

/-! ### Transport / timebase driver (zynseq.cpp) -/

/-- Constant `g_dTicksPerBeat` (zynseq.cpp line 60), the design constant 1920. -/
def ticksPerBeat : ℚ := 1920

/-- Constant `g_dTicksPerClock = g_dTicksPerBeat / 24` (zynseq.cpp line 62). -/
def ticksPerClock : ℚ := ticksPerBeat / 24

/-- Source `getFramesPerTick` (zynseq.cpp lines 85-89). -/
def getFramesPerTick (sampleRate : Nat) (tempo : ℚ) : ℚ :=
  60 * sampleRate / (tempo * ticksPerBeat)

/-- Source `getFramesPerClock` (zynseq.cpp lines 92-95). -/
def getFramesPerClock (sampleRate : Nat) (tempo : ℚ) : ℚ :=
  getFramesPerTick sampleRate tempo * ticksPerClock

/-- The tempo branch of the timebase-event loop in `onJackTimebase`
(zynseq.cpp lines 202-208): set the new tempo and recompute
`g_dFramesPerClock` from it.  Returns `(tempo, framesPerClock)`. -/
def applyTempoEvent (sampleRate : Nat) (value : ℚ) : ℚ × ℚ :=
  (value, getFramesPerClock sampleRate value)

/-- Song play status (`g_nSongStatus` takes STOPPED, STARTING, PLAYING;
the values are declared in zynseq.h, which is not under src, but only their
identity matters here). -/
inductive SongStatus where
  | stopped
  | starting
  | playing
deriving DecidableEq, Repr

/-- The driver state mutated by one clock pulse of the rolling-transport loop
of `onJackTimebase` (zynseq.cpp lines 282-313): `g_nBar`, `g_nBeat`,
`g_nTick`, `g_nClock`, `g_fBeatsPerBar` and the song status bookkeeping. -/
structure DriverState where
  bar : Nat
  beat : Nat
  tick : Nat
  clock : Nat
  beatsPerBar : Nat
  songStatus : SongStatus
  songPosition : Nat
  songLength : Nat
deriving DecidableEq, Repr

/-- The clock/beat/bar advancement at the end of each pulse (zynseq.cpp lines
302-312): `++g_nClock > 23` wraps the clock, `++g_nBeat > g_fBeatsPerBar`
wraps the beat, and the bar is incremented only when the song status is
PLAYING. -/
def advanceClock (s : DriverState) : DriverState :=
  if 23 < s.clock + 1 then
    if s.beatsPerBar < s.beat + 1 then
      { s with clock := 0, beat := 1
               bar := if s.songStatus = SongStatus.playing then s.bar + 1 else s.bar }
    else { s with clock := 0, beat := s.beat + 1 }
  else { s with clock := s.clock + 1 }

/-- The `if(!g_nClock)` block of the pulse loop (zynseq.cpp lines 288-297):
at clock zero the tick is rewound to the beat start, the song position
advances when the song is PLAYING (stopping it past the song length), and a
sync pulse turns STARTING into PLAYING. -/
def beatZeroBookkeeping (sync : Bool) (s : DriverState) : DriverState :=
  let s1 := { s with tick := 1920 * (s.beat - 1) }
  let s2 :=
    if s1.songStatus = SongStatus.playing then
      if s1.songLength < s1.songPosition + 1 then
        { s1 with songPosition := s1.songPosition + 1, songStatus := SongStatus.stopped }
      else { s1 with songPosition := s1.songPosition + 1 }
    else s1
  if sync && decide (s2.songStatus = SongStatus.starting) then
    { s2 with songStatus := SongStatus.playing }
  else s2

/-- One clock pulse of the rolling-transport loop of `onJackTimebase`
(zynseq.cpp lines 282-312), omitting the schedule side effect: at clock zero
the sync flag is `beat == 1` and the song bookkeeping runs; then clock, beat
and bar advance.  Returns the sync flag and the new state. -/
def clockPulse (s : DriverState) : Bool × DriverState :=
  if s.clock = 0 then
    (s.beat == 1, advanceClock (beatZeroBookkeeping (s.beat == 1) s))
  else (false, advanceClock s)

/-! ### Schedule drain (onJackProcess, zynseq.cpp lines 427-476) -/

/-- A scheduled MIDI message (`MIDI_MESSAGE`: command, value1, value2). -/
structure MidiMsg where
  command : Nat
  value1 : Nat
  value2 : Nat
deriving DecidableEq, Repr

/-- Result of one cycle's drain over the schedule: the `(offset, payload)`
pairs written to the output buffer (payload `none` models a reserved slot
whose entry's message pointer was already NULL), the schedule contents after
the drain, and whether the final `g_mSchedule.erase(begin, it)` ran (it is
skipped by the early `return 0` when an event is bumped past the cycle end). -/
structure DrainResult where
  emitted : List (Nat × Option MidiMsg)
  remaining : List (Nat × Option MidiMsg)
  erased : Bool
deriving DecidableEq, Repr

/-- The intra-cycle offset chosen for an entry (zynseq.cpp lines 440-449):
an entry in the past is sent at the next free offset, otherwise at its
scheduled offset, bumped up to `nNextTime` to preserve order. -/
def emitTime (nNow nNextTime frame : Nat) : Nat :=
  if frame < nNow then nNextTime
  else if frame - nNow < nNextTime then nNextTime
  else frame - nNow

/-- The drain loop of `onJackProcess` (zynseq.cpp lines 432-473) over the
schedule, a `std::map` iterated in ascending key order, modelled as a list of
`(frame, message)` entries.  `ok k` models the success of the `k`-th
`jack_midi_event_reserve` call of the cycle.  Exits: an entry at or beyond
the cycle end breaks (erase runs); a computed offset at or beyond `nFrames`
returns early (erase is skipped, already-emitted entries stay with their
message pointers nulled); a failed reservation breaks (erase runs). -/
def drainLoop (nNow nFrames : Nat) (ok : Nat → Bool) :
    Nat → Nat → List (Nat × Option MidiMsg) → DrainResult
  | _, _, [] => ⟨[], [], true⟩
  | k, nNextTime, (frame, msg) :: rest =>
    if nNow + nFrames ≤ frame then ⟨[], (frame, msg) :: rest, true⟩
    else if nFrames ≤ emitTime nNow nNextTime frame then ⟨[], (frame, msg) :: rest, false⟩
    else if ok k then
      let r := drainLoop nNow nFrames ok (k + 1) (emitTime nNow nNextTime frame + 1) rest
      ⟨(emitTime nNow nNextTime frame, msg) :: r.emitted,
       if r.erased then r.remaining else (frame, none) :: r.remaining,
       r.erased⟩
    else ⟨[], (frame, msg) :: rest, true⟩

/-- The schedule drain of one JACK cycle `[nNow, nNow + nFrames)`:
`nNextTime` starts at 0 (zynseq.cpp line 435). -/
def drain (nNow nFrames : Nat) (ok : Nat → Bool)
    (schedule : List (Nat × Option MidiMsg)) : DrainResult :=
  drainLoop nNow nFrames ok 0 0 schedule

/-! ### Helper lemmas -/

lemma le_emitTime (nNow nNextTime frame : Nat) : nNextTime ≤ emitTime nNow nNextTime frame := by
  unfold emitTime
  split_ifs <;> omega

/-- Structural description of the drain loop: messages are emitted in
schedule order (the emitted payloads are exactly the payloads of the
processed prefix), the post-drain schedule is the unprocessed suffix,
preceded (when the final erase was skipped) by the processed prefix with
nulled messages, and the emitted offsets are strictly increasing and bounded
below by the running `nNextTime`. -/
lemma drainLoop_spec (nNow nFrames : Nat) (ok : Nat → Bool) :
    ∀ (sched : List (Nat × Option MidiMsg)) (k n : Nat),
      (drainLoop nNow nFrames ok k n sched).emitted.map Prod.snd
          = (sched.take (drainLoop nNow nFrames ok k n sched).emitted.length).map Prod.snd ∧
      (drainLoop nNow nFrames ok k n sched).remaining
          = (if (drainLoop nNow nFrames ok k n sched).erased then []
             else (sched.take (drainLoop nNow nFrames ok k n sched).emitted.length).map
               (fun e => (e.1, (none : Option MidiMsg))))
            ++ sched.drop (drainLoop nNow nFrames ok k n sched).emitted.length ∧
      List.Chain' (· < ·) ((drainLoop nNow nFrames ok k n sched).emitted.map Prod.fst) ∧
      (∀ x ∈ (drainLoop nNow nFrames ok k n sched).emitted.map Prod.fst, n ≤ x) := by
  intro sched
  induction sched with
  | nil =>
      intro k n
      simp [drainLoop]
  | cons hd tl ih =>
      intro k n
      obtain ⟨frame, msg⟩ := hd
      by_cases h1 : nNow + nFrames ≤ frame
      · simp [drainLoop, h1]
      · by_cases h2 : nFrames ≤ emitTime nNow n frame
        · simp [drainLoop, h1, h2]
        · by_cases h3 : ok k
          · obtain ⟨e1, e2, e3, e4⟩ := ih (k + 1) (emitTime nNow n frame + 1)
            simp only [drainLoop, if_neg h1, if_neg h2, if_pos h3]
            refine ⟨?_, ?_, ?_, ?_⟩
            · simpa using e1
            · cases her : (drainLoop nNow nFrames ok (k + 1)
                  (emitTime nNow n frame + 1) tl).erased <;>
                simp only [her, if_true, if_false, Bool.false_eq_true] at e2 ⊢ <;>
                simp [e2]
            · refine List.chain'_cons'.mpr ⟨?_, e3⟩
              intro y hy
              have hmem := List.mem_of_mem_head? hy
              have := e4 y hmem
              omega
            · intro x hx
              rcases List.mem_cons.mp hx with h | h
              · subst h
                exact le_emitTime nNow n frame
              · have := e4 x h
                have := le_emitTime nNow n frame
                omega
          · simp [drainLoop, h1, h2, h3]

lemma mem_insertByPosition (ev x : StepEvent) :
    ∀ l : List StepEvent, x ∈ insertByPosition ev l ↔ x = ev ∨ x ∈ l := by
  intro l
  induction l with
  | nil => simp [insertByPosition]
  | cons e rest ih =>
      unfold insertByPosition
      split_ifs with hpos
      · simp
      · simp only [List.mem_cons, ih]
        tauto

lemma transposeStep_eq_shift (v : Int) :
    ∀ l : List StepEvent, (∀ ev ∈ l, noteOutOfRange v ev = false) →
      l.filterMap (transposeStep v) = l.map (transposeShift v) := by
  intro l
  induction l with
  | nil => simp
  | cons hd tl ih =>
      intro h
      have hhd := h hd (List.mem_cons_self hd tl)
      have htl := ih fun ev hev => h ev (List.mem_cons_of_mem hd hev)
      have hstep : transposeStep v hd = some (transposeShift v hd) := by
        unfold noteOutOfRange at hhd
        by_cases hc : (hd.command == MIDI_NOTE_ON) = true
        · simp only [hc, Bool.true_and] at hhd
          simp only [Bool.or_eq_false_iff, decide_eq_false_iff_not] at hhd
          simp [transposeStep, hc, hhd.1, hhd.2]
        · simp [transposeStep, transposeShift, hc]
      simp [List.filterMap_cons, hstep, htl]

/-! ### Claim theorems: schedule drain -/

/-- C1: for every schedule state and every realtime cycle, the intra-cycle
frame offsets at which the drain emits messages into the output buffer are
non-decreasing (in fact strictly increasing), and messages are emitted in
exactly the order in which they sit in the schedule, so entries at equal
frames — which the `std::map` schedule cannot hold in the first place —
trivially preserve insertion order. -/
theorem drain_offsets_nondecreasing (nNow nFrames : Nat) (ok : Nat → Bool)
    (sched : List (Nat × Option MidiMsg)) :
    List.Chain' (· ≤ ·) ((drain nNow nFrames ok sched).emitted.map Prod.fst) ∧
    (drain nNow nFrames ok sched).emitted.map Prod.snd
      = (sched.take (drain nNow nFrames ok sched).emitted.length).map Prod.snd := by
  obtain ⟨e1, _, e3, _⟩ := drainLoop_spec nNow nFrames ok sched 0 0
  exact ⟨e3.imp fun a b h => le_of_lt h, e1⟩

/-- C9 amended: whenever the drain stops early, every entry not yet emitted
remains queued (the unprocessed suffix of the schedule is a suffix of the
post-drain schedule); emitted entries are removed when the drain stops at an
entry scheduled at or beyond the cycle end, on output-buffer reservation
failure, or on completion (`erased = true`), but when the drain stops because
an entry's offset was bumped past the end of the cycle the emitted entries
stay in the schedule with their messages cleared. -/
theorem drain_keeps_unemitted_entries (nNow nFrames : Nat) (ok : Nat → Bool)
    (sched : List (Nat × Option MidiMsg)) :
    (drain nNow nFrames ok sched).remaining
        = (if (drain nNow nFrames ok sched).erased then []
           else (sched.take (drain nNow nFrames ok sched).emitted.length).map
             (fun e => (e.1, (none : Option MidiMsg))))
          ++ sched.drop (drain nNow nFrames ok sched).emitted.length ∧
    sched.drop (drain nNow nFrames ok sched).emitted.length
      <:+ (drain nNow nFrames ok sched).remaining := by
  obtain ⟨_, e2, _, _⟩ := drainLoop_spec nNow nFrames ok sched 0 0
  exact ⟨e2, e2 ▸ List.suffix_append _ _⟩

/-- C9 counterexample: in the cycle `[10, 12)` with three past-due entries at
frames 5, 6 and 7 and a never-failing reservation, the entries at frames 5
and 6 are emitted (at offsets 0 and 1), the entry at frame 7 is bumped to
offset 2 = cycle end, and the drain returns early without erasing: the
emitted entries at frames 5 and 6 are still in the schedule afterwards,
refuting the claim that every emitted entry is removed by the end of the
cycle's drain. -/
theorem drain_emitted_entry_left_in_schedule :
    (drain 10 2 (fun _ => true)
        [(5, some ⟨0x90, 60, 100⟩), (6, some ⟨0x90, 62, 100⟩), (7, some ⟨0x90, 64, 100⟩)]).emitted
      = [(0, some ⟨0x90, 60, 100⟩), (1, some ⟨0x90, 62, 100⟩)] ∧
    (drain 10 2 (fun _ => true)
        [(5, some ⟨0x90, 60, 100⟩), (6, some ⟨0x90, 62, 100⟩), (7, some ⟨0x90, 64, 100⟩)]).remaining
      = [(5, none), (6, none), (7, some ⟨0x90, 64, 100⟩)] := by
  constructor <;> rfl

/-! ### Claim theorems: pattern operations -/

/-- The claim's overlap relation, in the spec's words: the stored event's
time range `[p1, p1 + d1)` intersects the new event's interval
`[p2, p2 + d2)`, inclusive on the left and exclusive on the right. -/
def specOverlap (p1 : Nat) (d1 : ℚ) (p2 : Nat) (d2 : ℚ) : Prop :=
  (p1 : ℚ) < (p2 : ℚ) + d2 ∧ (p2 : ℚ) < (p1 : ℚ) + d1

/-- C2 counterexample: on a 4-beat, 4-steps-per-beat pattern,
`add_note(step=0, note=60, velocity=80, duration=10)` followed by
`add_note(step=2, note=60, velocity=100, duration=4)` leaves BOTH notes in
the pattern, although the first event's range `[0, 10)` overlaps the new
interval `[2, 6)` and both share `(command, value1_start) = (0x90, 60)`:
the source's overlap test misses an existing event that strictly contains
the new one, so the claimed eviction does not happen. -/
theorem addNote_keeps_containing_overlap :
    specOverlap 0 10 2 4 ∧
    ((addNote (addNote ⟨4, 4, []⟩ 0 60 80 10).2 2 60 100 4).2.events.map
        fun e => (e.position, e.command, e.value1start))
      = [(0, MIDI_NOTE_ON, 60), (2, MIDI_NOTE_ON, 60)] := by
  constructor
  · constructor <;> norm_num [specOverlap]
  · norm_num [addNote, addEventCore, newStepEvent, evictTest, overlapTest, insertByPosition,
      MIDI_NOTE_ON]

/-- C2 amended: adding an event evicts exactly the stored events with the
same `(command, value1_start)` whose start lies in
`[position, position + duration)` or whose end lies in
`(position, position + duration]` (an existing event strictly containing the
new interval is kept); in particular the claim's instance holds: after
`add_note(0, 60, 80, 4)` then `add_note(2, 60, 100, 4)` only the second note
remains. -/
theorem addEvent_evicts_source_overlaps :
    (∀ (p : Pattern) (ev x : StepEvent),
        x ∈ (addEventCore p ev).events
          ↔ x = ev ∨ (x ∈ p.events
              ∧ evictTest ev.position ev.command ev.value1start ev.duration x = false)) ∧
    ((addNote (addNote ⟨4, 4, []⟩ 0 60 80 4).2 2 60 100 4).2.events.map
        fun e => (e.position, e.command, e.value1start, e.value2start, e.duration))
      = [(2, MIDI_NOTE_ON, 60, 100, (4 : ℚ))] := by
  constructor
  · intro p ev x
    unfold addEventCore
    simp only [mem_insertByPosition, List.mem_filter, Bool.not_eq_true']
  · norm_num [addNote, addEventCore, newStepEvent, evictTest, overlapTest, insertByPosition,
      MIDI_NOTE_ON]

/-- C3: `set_steps_per_beat(8)` on a pattern with `steps_per_beat = 4` and an
event at position 4 of duration 2 accepts the new value but leaves the event
at position 4 with duration 2 — the rescale factor is written to a shadowing
local and the move loop iterates over copies, so no event is rescaled,
contradicting the claimed scaling to position 8, duration 4. -/
theorem setStepsPerBeat_does_not_rescale :
    (setStepsPerBeat ⟨4, 4, [newStepEvent 4 MIDI_NOTE_ON 60 100 2]⟩ 8).1 = true ∧
    (setStepsPerBeat ⟨4, 4, [newStepEvent 4 MIDI_NOTE_ON 60 100 2]⟩ 8).2.stepsPerBeat = 8 ∧
    ((setStepsPerBeat ⟨4, 4, [newStepEvent 4 MIDI_NOTE_ON 60 100 2]⟩ 8).2.events.map
        fun e => (e.position, e.duration))
      = [(4, (2 : ℚ))] := by
  refine ⟨rfl, rfl, rfl⟩

/-- C4: `transpose(v)` is all-or-nothing — if any note-on would be pushed
outside 0..127 the event list is returned unchanged, otherwise every note-on
is shifted by `v` (the erase branch of the second pass is dead code under the
first pass's guard). -/
theorem transpose_all_or_nothing (p : Pattern) (v : Int) :
    (transpose p v).events =
      if p.events.any (noteOutOfRange v) then p.events
      else p.events.map (transposeShift v) := by
  unfold transpose
  by_cases h : p.events.any (noteOutOfRange v)
  · simp [h]
  · have hall : ∀ ev ∈ p.events, noteOutOfRange v ev = false := by
      simpa using h
    simp [h, transposeStep_eq_shift v p.events hall]

/-- C7: `add_note(step, note, velocity, duration)` returns false and leaves
the pattern unchanged exactly when `step ≥ beats × steps_per_beat`, the note
exceeds 127, or the velocity exceeds 127; otherwise it returns true and adds
the note-on event through `addEvent`. -/
theorem addNote_validation (p : Pattern) (step note velocity : Nat) (duration : ℚ) :
    ((addNote p step note velocity duration).1 = false
        ↔ (p.beats * p.stepsPerBeat ≤ step ∨ 127 < note ∨ 127 < velocity)) ∧
    ((addNote p step note velocity duration).1 = false
        → (addNote p step note velocity duration).2 = p) ∧
    ((addNote p step note velocity duration).1 = true
        → (addNote p step note velocity duration).2
              = addEventCore p (newStepEvent step MIDI_NOTE_ON note velocity duration)
          ∧ newStepEvent step MIDI_NOTE_ON note velocity duration
              ∈ (addNote p step note velocity duration).2.events) := by
  unfold addNote
  by_cases h : p.beats * p.stepsPerBeat ≤ step ∨ 127 < note ∨ 127 < velocity
  · simp [h]
  · rw [if_neg h]
    refine ⟨by simp [h], by simp, fun _ => ⟨rfl, ?_⟩⟩
    unfold addEventCore
    simp [mem_insertByPosition]

/-- C7 witness: on an empty 4-beat, 4-steps-per-beat pattern, step 16 is
rejected without change and step 0 succeeds with the event present. -/
theorem addNote_validation_witness :
    (addNote (⟨4, 4, []⟩ : Pattern) 16 60 100 1).1 = false ∧
    (addNote (⟨4, 4, []⟩ : Pattern) 16 60 100 1).2 = (⟨4, 4, []⟩ : Pattern) ∧
    newStepEvent 0 MIDI_NOTE_ON 60 100 1
      ∈ (addNote (⟨4, 4, []⟩ : Pattern) 0 60 100 1).2.events := by
  have h1 := (addNote_validation ⟨4, 4, []⟩ 16 60 100 1).1.mpr (by norm_num)
  refine ⟨h1, (addNote_validation ⟨4, 4, []⟩ 16 60 100 1).2.1 h1, ?_⟩
  exact ((addNote_validation ⟨4, 4, []⟩ 0 60 100 1).2.2 rfl).2

/-- C8: `add_control` validates with `step > beats × steps_per_beat` rather
than `≥`, so on a 1-beat, 4-steps-per-beat pattern (bound 4) a control at
step 4 is accepted and stored at position 4, violating the invariant
`position < beats × steps_per_beat`. -/
theorem addControl_admits_position_at_bound :
    ((addControl ⟨1, 4, []⟩ 4 7 0 0 1).events.map fun e => e.position) = [4] ∧
    ¬(4 < (⟨1, 4, []⟩ : Pattern).beats * (⟨1, 4, []⟩ : Pattern).stepsPerBeat) := by
  refine ⟨rfl, by norm_num⟩

/-- C10: `set_note_velocity` (with an in-range velocity), `change_velocity_all`
and `change_duration_all` leave the stored event list unchanged — each
iterates over by-value copies of the events, so the writes land in
temporaries. -/
theorem velocity_duration_edits_keep_events (p : Pattern) (step note velocity : Nat)
    (dv : Int) (dd : ℚ) (_h : velocity ≤ 127) :
    (setNoteVelocity p step note velocity).events = p.events ∧
    (changeVelocityAll p dv).events = p.events ∧
    (changeDurationAll p dd).events = p.events := by
  refine ⟨?_, rfl, rfl⟩
  unfold setNoteVelocity
  split <;> rfl

/-- C10 witness: the three edits on a one-note pattern keep its event list. -/
theorem velocity_duration_edits_keep_events_witness :
    (100 : Nat) ≤ 127 ∧
    (setNoteVelocity ⟨4, 4, [newStepEvent 0 MIDI_NOTE_ON 60 100 1]⟩ 0 60 100).events
      = [newStepEvent 0 MIDI_NOTE_ON 60 100 1] := by
  refine ⟨by norm_num, ?_⟩
  exact (velocity_duration_edits_keep_events
    ⟨4, 4, [newStepEvent 0 MIDI_NOTE_ON 60 100 1]⟩ 0 60 100 1 1 (by norm_num)).1

lemma beatZeroBookkeeping_components (sync : Bool) (s : DriverState) :
    (beatZeroBookkeeping sync s).clock = s.clock ∧
    (beatZeroBookkeeping sync s).beat = s.beat ∧
    (beatZeroBookkeeping sync s).bar = s.bar ∧
    (beatZeroBookkeeping sync s).beatsPerBar = s.beatsPerBar := by
  unfold beatZeroBookkeeping
  dsimp only
  split_ifs <;> exact ⟨rfl, rfl, rfl, rfl⟩

lemma advanceClock_clock (t : DriverState) (h : t.clock ≤ 23) :
    (advanceClock t).clock = (t.clock + 1) % 24 := by
  unfold advanceClock
  split_ifs <;> simp <;> omega

lemma advanceClock_wrap (t : DriverState) (h1 : t.clock = 23)
    (h2 : t.beatsPerBar < t.beat + 1) :
    (advanceClock t).beat = 1 ∧
    (advanceClock t).bar = (if t.songStatus = SongStatus.playing then t.bar + 1 else t.bar) := by
  unfold advanceClock
  rw [if_pos (by omega), if_pos h2]
  exact ⟨rfl, rfl⟩

lemma advanceClock_incrBeat (t : DriverState) (h1 : t.clock = 23)
    (h2 : t.beat + 1 ≤ t.beatsPerBar) :
    (advanceClock t).beat = t.beat + 1 ∧ (advanceClock t).bar = t.bar := by
  unfold advanceClock
  rw [if_pos (by omega), if_neg (by omega)]
  exact ⟨rfl, rfl⟩

lemma advanceClock_noWrap (t : DriverState) (h1 : t.clock ≠ 23) (h : t.clock ≤ 23) :
    (advanceClock t).beat = t.beat ∧ (advanceClock t).bar = t.bar := by
  unfold advanceClock
  rw [if_neg (by omega)]
  exact ⟨rfl, rfl⟩

/-! ### Claim theorems: transport driver -/

/-- C5 counterexample: in the state bar 1, beat 4, clock 23, 4 beats per bar,
with the song status STOPPED, the next clock pulse wraps the clock and resets
the beat to 1, yet the bar stays at 1 instead of incrementing to 2: the
source increments the bar only when the song status is PLAYING, refuting the
claim's unconditional "beat resets to 1 and bar increments". -/
theorem clockPulse_bar_not_incremented :
    (clockPulse ⟨1, 4, 0, 23, 4, SongStatus.stopped, 0, 0⟩).2.clock = 0 ∧
    (clockPulse ⟨1, 4, 0, 23, 4, SongStatus.stopped, 0, 0⟩).2.beat = 1 ∧
    (clockPulse ⟨1, 4, 0, 23, 4, SongStatus.stopped, 0, 0⟩).2.bar = 1 ∧
    (1 : Nat) ≠ 1 + 1 := by
  refine ⟨rfl, rfl, rfl, by norm_num⟩

/-- C5 amended: while the transport is rolling, each clock pulse computes the
sync flag as `clock_in_beat == 0 and beat == 1`, increments `clock_in_beat`
modulo 24, on wrap increments the beat, and on beat-per-bar wrap resets the
beat to 1 and increments the bar only when the song status is PLAYING
(otherwise the bar is unchanged). -/
theorem clockPulse_advances (s : DriverState) (h : s.clock ≤ 23) :
    (clockPulse s).1 = (s.clock == 0 && s.beat == 1) ∧
    (clockPulse s).2.clock = (s.clock + 1) % 24 ∧
    (s.clock = 23 →
      (s.beatsPerBar < s.beat + 1 →
        (clockPulse s).2.beat = 1 ∧
        (clockPulse s).2.bar
          = (if s.songStatus = SongStatus.playing then s.bar + 1 else s.bar)) ∧
      (s.beat + 1 ≤ s.beatsPerBar →
        (clockPulse s).2.beat = s.beat + 1 ∧ (clockPulse s).2.bar = s.bar)) ∧
    (s.clock ≠ 23 → (clockPulse s).2.beat = s.beat ∧ (clockPulse s).2.bar = s.bar) := by
  by_cases hc : s.clock = 0
  · obtain ⟨k1, k2, k3, k4⟩ := beatZeroBookkeeping_components (s.beat == 1) s
    have hp : clockPulse s = (s.beat == 1, advanceClock (beatZeroBookkeeping (s.beat == 1) s)) := by
      unfold clockPulse
      rw [if_pos hc]
    rw [hp]
    refine ⟨by simp [hc], ?_, ?_, ?_⟩
    · rw [advanceClock_clock _ (by omega), k1]
    · intro h23
      exact absurd h23 (by omega)
    · intro h23
      obtain ⟨b1, b2⟩ := advanceClock_noWrap (beatZeroBookkeeping (s.beat == 1) s)
        (by omega) (by omega)
      rw [b1, b2, k2, k3]
      exact ⟨rfl, rfl⟩
  · have hp : clockPulse s = (false, advanceClock s) := by
      unfold clockPulse
      rw [if_neg hc]
    have hcf : (s.clock == 0) = false := by simpa using hc
    rw [hp]
    refine ⟨by simp [hcf], advanceClock_clock s h, ?_, ?_⟩
    · intro h23
      refine ⟨fun hb => advanceClock_wrap s h23 hb, fun hb => advanceClock_incrBeat s h23 hb⟩
    · intro h23
      exact advanceClock_noWrap s h23 h

/-- C5 witness: a PLAYING state at bar 1, beat 4 of 4, clock 23 wraps to
clock zero with the bar incremented. -/
theorem clockPulse_advances_witness :
    (⟨1, 4, 0, 23, 4, SongStatus.playing, 0, 5⟩ : DriverState).clock ≤ 23 ∧
    (clockPulse ⟨1, 4, 0, 23, 4, SongStatus.playing, 0, 5⟩).2.clock = (23 + 1) % 24 := by
  exact ⟨by norm_num,
    (clockPulse_advances ⟨1, 4, 0, 23, 4, SongStatus.playing, 0, 5⟩ (by norm_num)).2.1⟩

/-- C6: with `ticks_per_beat = 1920` and 24 MIDI clocks per beat, the
frames-per-clock value installed by a tempo change equals
`(60 × sample_rate) / (tempo × 24)` exactly (hence within one frame). -/
theorem framesPerClock_formula (sampleRate : Nat) (tempo : ℚ) (h : 0 < tempo) :
    getFramesPerClock sampleRate tempo = 60 * sampleRate / (tempo * 24) ∧
    (applyTempoEvent sampleRate tempo).2 = 60 * sampleRate / (tempo * 24) := by
  have hne : tempo ≠ 0 := ne_of_gt h
  have key : getFramesPerClock sampleRate tempo = 60 * sampleRate / (tempo * 24) := by
    unfold getFramesPerClock getFramesPerTick ticksPerClock ticksPerBeat
    field_simp
    ring
  exact ⟨key, key⟩

/-- C6 witness: at 48 kHz and 120 BPM the installed frames-per-clock is
`60·48000/(120·24) = 1000`. -/
theorem framesPerClock_formula_witness :
    (0 : ℚ) < 120 ∧
    (applyTempoEvent 48000 120).2 = 60 * (48000 : Nat) / ((120 : ℚ) * 24) ∧
    (applyTempoEvent 48000 120).2 = 1000 := by
  refine ⟨by norm_num, (framesPerClock_formula 48000 120 (by norm_num)).2, ?_⟩
  rw [(framesPerClock_formula 48000 120 (by norm_num)).2]
  norm_num

end Zynseq
